import Mathlib

/-!
Verification of the content-addressed storage and lifecycle core of the
espebra/pastebin service.

The development shallowly embeds the Go sources:
- internal/paste/paste.go: the Paste and Meta data model, ComputeChecksum
  (SHA-256, lowercase hex) and the expiry predicate;
- internal/storage/s3.go: Store, Get, Delete and ForEachMeta against an
  S3-compatible bucket, modelled as function maps from object keys to
  stored values, with boolean oracles injecting backend failures and
  explicit traces of the backend calls an operation performs;
- internal/handlers (isValidChecksum, the TTL fallback logic of
  handleCreate, and handleDelete);
- internal/cleanup (the retention sweep).

Machine integers are modelled as Nat with explicit reduction modulo 2^32
where the Go code relies on 32-bit wraparound (SHA-256), and as Int for
time values (nanoseconds, mirroring time.Duration and time.Time).
Network failures are injected through explicit oracle arguments; a fetch
that fails for any reason is modelled as returning none.
-/

set_option autoImplicit false

namespace Pastebin

/-! ## SHA-256 (FIPS 180-4), as used by Go crypto/sha256 in ComputeChecksum

paste.go line 75: ComputeChecksum writes the UTF-8 bytes of the content
into a sha256 hash and hex-encodes the 32-byte digest in lowercase.
The implementation below is the standard SHA-256 compression function over
byte lists, words being Nat values reduced modulo 2^32. -/

/-- Reduce modulo 2^32, the word size of SHA-256. -/
def w32 (n : Nat) : Nat := n % 4294967296

/-- Rotate a 32-bit word right by n bits. -/
def rotr (n x : Nat) : Nat := w32 ((x >>> n) ||| (x <<< (32 - n)))

def bsig0 (x : Nat) : Nat := (rotr 2 x) ^^^ (rotr 13 x) ^^^ (rotr 22 x)

def bsig1 (x : Nat) : Nat := (rotr 6 x) ^^^ (rotr 11 x) ^^^ (rotr 25 x)

def ssig0 (x : Nat) : Nat := (rotr 7 x) ^^^ (rotr 18 x) ^^^ (x >>> 3)

def ssig1 (x : Nat) : Nat := (rotr 17 x) ^^^ (rotr 19 x) ^^^ (x >>> 10)

/-- The SHA-256 choice function; the complement is taken inside 32 bits. -/
def chFn (e f g : Nat) : Nat := (e &&& f) ^^^ ((e ^^^ 4294967295) &&& g)

def majFn (a b c : Nat) : Nat := (a &&& b) ^^^ (a &&& c) ^^^ (b &&& c)

/-- The 64 SHA-256 round constants, written in decimal. -/
def shaK : List Nat :=
  [1116352408, 1899447441, 3049323471, 3921009573, 961987163,
   1508970993, 2453635748, 2870763221, 3624381080, 310598401,
   607225278, 1426881987, 1925078388, 2162078206, 2614888103,
   3248222580, 3835390401, 4022224774, 264347078, 604807628,
   770255983, 1249150122, 1555081692, 1996064986, 2554220882,
   2821834349, 2952996808, 3210313671, 3336571891, 3584528711,
   113926993, 338241895, 666307205, 773529912, 1294757372,
   1396182291, 1695183700, 1986661051, 2177026350, 2456956037,
   2730485921, 2820302411, 3259730800, 3345764771, 3516065817,
   3600352804, 4094571909, 275423344, 430227734, 506948616,
   659060556, 883997877, 958139571, 1322822218, 1537002063,
   1747873779, 1955562222, 2024104815, 2227730452, 2361852424,
   2428436474, 2756734187, 3204031479, 3329325298]

/-- The initial SHA-256 hash state, written in decimal. -/
def shaH0 : List Nat :=
  [1779033703, 3144134277, 1013904242,
   2773480762, 1359893119, 2600822924,
   528734635, 1541459225]

/-- Big-endian 8-byte encoding of the message bit length. -/
def lenBytes (n : Nat) : List Nat :=
  [n >>> 56 % 256, n >>> 48 % 256, n >>> 40 % 256, n >>> 32 % 256,
   n >>> 24 % 256, n >>> 16 % 256, n >>> 8 % 256, n % 256]

/-- SHA-256 padding: a 0x80 byte, zeros to 56 mod 64, then the bit length. -/
def sha256Pad (msg : List Nat) : List Nat :=
  let L := msg.length
  msg ++ 0x80 :: List.replicate ((119 - L % 64) % 64) 0 ++ lenBytes (8 * L)

/-- Group bytes into big-endian 32-bit words. -/
def toWords : List Nat → List Nat
  | a :: b :: c :: d :: rest => (((a * 256 + b) * 256 + c) * 256 + d) :: toWords rest
  | _ => []

/-- Group words into 16-word blocks (the padded message is a multiple of 16 words). -/
def toBlocks : List Nat → List (List Nat)
  | w0 :: w1 :: w2 :: w3 :: w4 :: w5 :: w6 :: w7 :: w8 :: w9 :: w10 :: w11 :: w12 :: w13 :: w14 :: w15 :: rest =>
      [w0, w1, w2, w3, w4, w5, w6, w7, w8, w9, w10, w11, w12, w13, w14, w15] :: toBlocks rest
  | _ => []

/-- Message-schedule extension: produce n further words from a sliding
window of the last 16 schedule words. -/
def scheduleWindow : Nat → List Nat → List Nat
  | 0, _ => []
  | n + 1, w0 :: w1 :: w2 :: w3 :: w4 :: w5 :: w6 :: w7 :: w8 :: w9 :: w10 :: w11 :: w12 :: w13 :: w14 :: w15 :: _ =>
      let nw := w32 (ssig1 w14 + w9 + ssig0 w1 + w0)
      nw :: scheduleWindow n [w1, w2, w3, w4, w5, w6, w7, w8, w9, w10, w11, w12, w13, w14, w15, nw]
  | _ + 1, _ => []

/-- One SHA-256 round on the 8-word working state. -/
def roundStep (st : Nat × Nat × Nat × Nat × Nat × Nat × Nat × Nat) (kw : Nat × Nat) :
    Nat × Nat × Nat × Nat × Nat × Nat × Nat × Nat :=
  match st, kw with
  | (a, b, c, d, e, f, g, h), (k, w) =>
    let t1 := w32 (h + bsig1 e + chFn e f g + k + w)
    let t2 := w32 (bsig0 a + majFn a b c)
    (w32 (t1 + t2), a, b, c, w32 (d + t1), e, f, g)

/-- Compress one 16-word block into the running 8-word hash state. -/
def compress (hs : List Nat) (block : List Nat) : List Nat :=
  match hs with
  | [h0, h1, h2, h3, h4, h5, h6, h7] =>
    let ws := block ++ scheduleWindow 48 block
    match (shaK.zip ws).foldl roundStep (h0, h1, h2, h3, h4, h5, h6, h7) with
    | (a, b, c, d, e, f, g, h) =>
      [w32 (h0 + a), w32 (h1 + b), w32 (h2 + c), w32 (h3 + d),
       w32 (h4 + e), w32 (h5 + f), w32 (h6 + g), w32 (h7 + h)]
  | _ => hs

/-- Big-endian bytes of a 32-bit word. -/
def wordBytes (w : Nat) : List Nat := [w >>> 24 % 256, w >>> 16 % 256, w >>> 8 % 256, w % 256]

/-- SHA-256 digest (32 bytes) of a byte list. -/
def sha256Bytes (msg : List Nat) : List Nat :=
  ((toBlocks (toWords (sha256Pad msg))).foldl compress shaH0).flatMap wordBytes

/-- Lowercase hexadecimal digit, as produced by encoding/hex. -/
def hexDigitChar : Nat → Char
  | 0 => '0' | 1 => '1' | 2 => '2' | 3 => '3' | 4 => '4' | 5 => '5' | 6 => '6' | 7 => '7'
  | 8 => '8' | 9 => '9' | 10 => 'a' | 11 => 'b' | 12 => 'c' | 13 => 'd' | 14 => 'e' | _ => 'f'

/-- hex.EncodeToString: two lowercase hex digits per byte. -/
def hexEncode (bs : List Nat) : String :=
  String.mk (bs.flatMap (fun b => [hexDigitChar (b / 16), hexDigitChar (b % 16)]))

/-- UTF-8 encoding of one character, as Go produces for []byte(string).
Each Char in scope of this development is a Unicode scalar value below
0x110000, so the four standard ranges cover every input. -/
def utf8Bytes (c : Char) : List Nat :=
  let v := c.toNat
  if v < 128 then [v]
  else if v < 2048 then [192 + v / 64, 128 + v % 64]
  else if v < 65536 then [224 + v / 4096, 128 + (v / 64) % 64, 128 + v % 64]
  else [240 + v / 262144, 128 + (v / 4096) % 64, 128 + (v / 64) % 64, 128 + v % 64]

/-- The byte sequence of a Go string: the UTF-8 bytes of its characters.
Go len(s) and []byte(s) are taken over this sequence. -/
def goBytes (s : String) : List Nat := s.data.flatMap utf8Bytes

/-- paste.go ComputeChecksum: SHA-256 of the UTF-8 bytes of the content,
hex-encoded in lowercase (64 characters). -/
def ComputeChecksum (content : String) : String := hexEncode (sha256Bytes (goBytes content))

/-! ## Paste and Meta (internal/paste/paste.go) -/

/-- paste.go Paste: content plus its content-derived identity. -/
structure Paste where
  Checksum : String
  Content : String
  deriving DecidableEq, Repr

/-- paste.go Meta: the metadata record stored alongside a paste.
Timestamps are modelled as Int nanoseconds since the epoch, mirroring
time.Time up to the serialization format. -/
structure Meta where
  Checksum : String
  CreatedAt : Int
  ExpiresAt : Int
  Size : Int
  deriving DecidableEq, Repr

/-- paste.go Meta.IsExpired: time.Now().After(m.ExpiresAt), with the
current instant passed explicitly. Go After is strict: it returns true
only when now is strictly later than ExpiresAt. -/
def metaIsExpiredAt (now : Int) (m : Meta) : Bool := decide (m.ExpiresAt < now)

/-! ## Identifier validation (internal/handlers, isValidChecksum)

The handler checks len(checksum) == 64 (Go len counts UTF-8 bytes) and
then that hex.DecodeString succeeds. hex.DecodeString fails exactly when
the byte length is odd or some byte is not a hexadecimal digit. -/

/-- A byte that encoding/hex accepts as a hexadecimal digit:
the codes of 0-9, a-f and A-F. -/
def isHexByte (b : Nat) : Bool :=
  (48 ≤ b && b ≤ 57) || (97 ≤ b && b ≤ 102) || (65 ≤ b && b ≤ 70)

/-- A character that is a hexadecimal digit (case-insensitive). -/
def isHexChar (c : Char) : Bool := isHexByte c.toNat

/-- hex.DecodeString succeeds on these bytes: even length, all hex digits. -/
def hexDecodeOk (bs : List Nat) : Bool := bs.length % 2 == 0 && bs.all isHexByte

/-- handlers isValidChecksum: byte length exactly 64 (checksumLength) and
hex.DecodeString succeeds. Total on every input; the Go code performs no
operation that can panic here. -/
def isValidChecksum (checksum : String) : Bool :=
  (goBytes checksum).length == 64 && hexDecodeOk (goBytes checksum)

/-! ## TTL parsing and fallback (internal/handlers, handleCreate)

handleCreate reads the requested TTL from the form, parses it with
time.ParseDuration and falls back to the configured default (and, when
that default is itself non-positive, to 24 hours). The functions below
model Go time.ParseDuration over nanosecond Int durations. The one
deliberate deviation: Go computes the fractional part with float64
arithmetic; the model uses exact arithmetic (f * unit / scale). The two
agree on parse success, failure, and sign, which is all the handler
logic depends on. -/

/-- time/format.go leadingInt: consume leading decimal digits into x,
failing on uint64 overflow past 1<<63. -/
def leadingInt : Nat → List Char → Option (Nat × List Char)
  | x, [] => some (x, [])
  | x, c :: cs =>
    if c.isDigit then
      if x > 922337203685477580 then none
      else
        let x' := x * 10 + (c.toNat - 48)
        if x' > 9223372036854775808 then none
        else leadingInt x' cs
    else some (x, c :: cs)

/-- time/format.go leadingFraction: consume fractional digits, tracking
the power-of-ten scale and silently stopping accumulation on overflow. -/
def leadingFraction : List Char → Nat → Nat → Bool → Nat × Nat × List Char
  | [], x, scale, _ => (x, scale, [])
  | c :: cs, x, scale, overflow =>
    if c.isDigit then
      if overflow then leadingFraction cs x scale overflow
      else if x > 922337203685477580 then leadingFraction cs x scale true
      else
        let y := x * 10 + (c.toNat - 48)
        if y > 9223372036854775808 then leadingFraction cs x scale true
        else leadingFraction cs y (scale * 10) overflow
    else (x, scale, c :: cs)

/-- The unit substring: the longest leading run that is neither a digit
nor a decimal point. -/
def spanUnit (s : List Char) : List Char × List Char :=
  (s.takeWhile (fun c => !(c = '.' || c.isDigit)), s.dropWhile (fun c => !(c = '.' || c.isDigit)))

/-- time/format.go unitMap: nanoseconds per recognised unit. -/
def unitMap (u : List Char) : Option Nat :=
  if u = ['n', 's'] then some 1
  else if u = ['u', 's'] then some 1000
  else if u = ['µ', 's'] then some 1000
  else if u = ['μ', 's'] then some 1000
  else if u = ['m', 's'] then some 1000000
  else if u = ['s'] then some 1000000000
  else if u = ['m'] then some 60000000000
  else if u = ['h'] then some 3600000000000
  else none

/-- The main ParseDuration loop: repeatedly parse one number-unit pair and
accumulate into d, failing past 1<<63. The fuel argument bounds the
number of iterations; each iteration consumes at least one character, so
a fuel of one more than the length of the input is never exhausted. -/
def parseUnits : Nat → List Char → Nat → Option Nat
  | _, [], d => some d
  | 0, _ :: _, _ => none
  | fuel + 1, c0 :: s0, d =>
    let s := c0 :: s0
    if !(c0 = '.' || c0.isDigit) then none
    else
      match leadingInt 0 s with
      | none => none
      | some (v, s1) =>
        let pre := s1.length ≠ s.length
        let frac :=
          match s1 with
          | '.' :: cs =>
            let r := leadingFraction cs 0 1 false
            (r.1, r.2.1, r.2.2, decide (r.2.2.length ≠ cs.length))
          | _ => (0, 1, s1, false)
        match frac with
        | (f, scale, s2, post) =>
          if !pre && !post then none
          else
            let u := (spanUnit s2).1
            let s3 := (spanUnit s2).2
            if u = [] then none
            else
              match unitMap u with
              | none => none
              | some unit =>
                if v > 9223372036854775808 / unit then none
                else
                  let v1 := v * unit
                  let v2 := if f > 0 then v1 + f * unit / scale else v1
                  if v2 > 9223372036854775808 then none
                  else
                    let d' := d + v2
                    if d' > 9223372036854775808 then none
                    else parseUnits fuel s3 d'

/-- time.ParseDuration: optional sign, the special case 0, then a
non-empty sequence of number-unit pairs; the result in nanoseconds, or
none on any malformed input or overflow. -/
def parseDuration (s : String) : Option Int :=
  let cs := s.data
  let signed : Bool × List Char :=
    match cs with
    | '-' :: rest => (true, rest)
    | '+' :: rest => (false, rest)
    | _ => (false, cs)
  let neg := signed.1
  let cs1 := signed.2
  if cs1 = ['0'] then some 0
  else if cs1 = [] then none
  else
    match parseUnits (cs1.length + 1) cs1 0 with
    | none => none
    | some d =>
      if neg then
        if d > 9223372036854775808 then none else some (-(d : Int))
      else
        if d > 9223372036854775807 then none else some (d : Int)

/-- The hardcoded final fallback of handleCreate: 24 hours, in nanoseconds. -/
def fallbackDayTTL : Int := 86400000000000

/-- handlers handleCreate, TTL selection (lines 158-172): start from the
configured default; when the form value is non-empty, parses, and is
positive, use it; then, if the selected TTL is still non-positive, fall
back to the configured default and finally to 24 hours. -/
def effectiveTTL (ttlStr : String) (defaultTTL : Int) : Int :=
  let ttl := defaultTTL
  let ttl :=
    if ttlStr ≠ "" then
      match parseDuration ttlStr with
      | some parsed => if parsed > 0 then parsed else ttl
      | none => ttl
    else ttl
  if ttl ≤ 0 then
    let ttl2 := defaultTTL
    if ttl2 ≤ 0 then fallbackDayTTL else ttl2
  else ttl

/-! ## The object store adapter (internal/storage/s3.go)

The backing bucket is modelled as two function maps: content objects
(raw bytes under pastes/) and metadata objects (under meta/). A metadata
object value of some none stands for a stored blob that fails JSON
decoding; the JSON serialization itself is abstracted, the map storing
the decoded Meta directly. A lookup of none models any failed GetObject
call (absent object, transport error, cancelled context). Each operation
additionally reports the backend calls it issued, in order, so that
ordering and must-not-call properties can be stated directly. -/

/-- s3.go pastePrefix ++ checksum: the content object key. -/
def pasteKeyOf (checksum : String) : String := "pastes/" ++ checksum

/-- s3.go metaPrefix ++ checksum ++ ".json": the metadata object key. -/
def metaKeyOf (checksum : String) : String := "meta/" ++ checksum ++ ".json"

/-- The bucket contents. -/
structure Bucket where
  contents : String → Option String
  metas : String → Option (Option Meta)

/-- The bucket with no objects. -/
def emptyBucket : Bucket := ⟨fun _ => none, fun _ => none⟩

/-- The errors Get can return, mirroring the wrapped errors of s3.go Get.
checksumMismatch wraps ErrChecksumMismatch and records the expected and
the computed checksum, as the Go error message does. -/
inductive GetErr where
  | getPasteFailed
  | checksumMismatch (expected computed : String)
  | getMetaFailed
  | decodeMetaFailed
  deriving DecidableEq, Repr

/-- errors.Is(err, ErrChecksumMismatch): only the mismatch error is in the
corruption class; the other three are lookup failures. -/
def GetErr.isCorruption : GetErr → Bool
  | .checksumMismatch _ _ => true
  | _ => false

/-- s3.go Get: fetch the content object, recompute the checksum of the
retrieved bytes, compare to the requested checksum, and only on a match
fetch and decode the metadata object. The second component lists the
object keys whose GetObject call was issued, in order. -/
def S3Get (b : Bucket) (checksum : String) :
    Except GetErr (Paste × Meta) × List String :=
  match b.contents (pasteKeyOf checksum) with
  | none => (Except.error GetErr.getPasteFailed, [pasteKeyOf checksum])
  | some content =>
    if ComputeChecksum content ≠ checksum then
      (Except.error (GetErr.checksumMismatch checksum (ComputeChecksum content)),
       [pasteKeyOf checksum])
    else
      match b.metas (metaKeyOf checksum) with
      | none => (Except.error GetErr.getMetaFailed, [pasteKeyOf checksum, metaKeyOf checksum])
      | some none =>
        (Except.error GetErr.decodeMetaFailed, [pasteKeyOf checksum, metaKeyOf checksum])
      | some (some m) =>
        (Except.ok (⟨checksum, content⟩, m), [pasteKeyOf checksum, metaKeyOf checksum])

/-- The errors Store can return. Marshalling a Meta never fails in Go
(all fields have total JSON encodings), so only the two PutObject
failures are modelled. -/
inductive StoreErr where
  | storePasteFailed
  | storeMetaFailed
  deriving DecidableEq, Repr

/-- A backend write call, recorded in the order the operation issues it. -/
inductive Event where
  | putObject (key : String)
  | deleteObject (key : String)
  deriving DecidableEq, Repr

/-- s3.go Store: PutObject the content under pastes/{checksum}, and only
if that succeeds, PutObject the metadata under meta/{checksum}.json.
okContent and okMeta are the outcomes of the two backend calls; a failed
call leaves the bucket unchanged. Returns the resulting bucket, the
error if any, and the trace of backend calls issued. -/
def S3Store (b : Bucket) (p : Paste) (m : Meta) (okContent okMeta : Bool) :
    Bucket × Option StoreErr × List Event :=
  if okContent then
    let b1 : Bucket :=
      { b with contents := fun k => if k = pasteKeyOf p.Checksum then some p.Content else b.contents k }
    if okMeta then
      ({ b1 with metas := fun k => if k = metaKeyOf p.Checksum then some (some m) else b1.metas k },
       none,
       [Event.putObject (pasteKeyOf p.Checksum), Event.putObject (metaKeyOf p.Checksum)])
    else
      (b1, some StoreErr.storeMetaFailed,
       [Event.putObject (pasteKeyOf p.Checksum), Event.putObject (metaKeyOf p.Checksum)])
  else
    (b, some StoreErr.storePasteFailed, [Event.putObject (pasteKeyOf p.Checksum)])

/-- The errors Delete can return. -/
inductive DeleteErr where
  | deletePasteFailed
  | deleteMetaFailed
  deriving DecidableEq, Repr

/-- s3.go Delete: DeleteObject the content object and, only if that call
succeeds, DeleteObject the metadata object. A failed call leaves the
bucket unchanged; a successful DeleteObject also succeeds when the
object is already absent, per S3 semantics. -/
def S3Delete (b : Bucket) (checksum : String) (okContent okMeta : Bool) :
    Bucket × Option DeleteErr :=
  if okContent then
    let b1 : Bucket :=
      { b with contents := fun k => if k = pasteKeyOf checksum then none else b.contents k }
    if okMeta then
      ({ b1 with metas := fun k => if k = metaKeyOf checksum then none else b1.metas k }, none)
    else (b1, some DeleteErr.deleteMetaFailed)
  else (b, some DeleteErr.deletePasteFailed)

/-- s3.go fetchMeta: GetObject one metadata key and decode it; none on
either a failed fetch or a failed decode. -/
def fetchMeta (b : Bucket) (key : String) : Option Meta :=
  match b.metas key with
  | some (some m) => some m
  | _ => none

/-- The outcome of one ForEachMeta pass. -/
inductive IterResult where
  | ok
  | listFailed
  | stopped (msg : String)
  deriving DecidableEq, Repr

/-- The inner loop of s3.go ForEachMeta over the keys of one listing
page: a key whose fetchMeta fails is skipped and iteration continues; a
callback error halts immediately and is propagated. Also returns the
metas the callback was invoked on, in order. -/
def forEachPageKeys (b : Bucket) (cb : Meta → Option String) :
    List String → Option String × List Meta
  | [] => (none, [])
  | key :: rest =>
    match fetchMeta b key with
    | none => forEachPageKeys b cb rest
    | some m =>
      match cb m with
      | some e => (some e, [m])
      | none =>
        let r := forEachPageKeys b cb rest
        (r.1, m :: r.2)

/-- s3.go ForEachMeta: page through the listing of the meta/ prefix. The
pages argument is the sequence of listing results the paginator
returns; none models a failed NextPage call, which aborts the pass with
a listing error before any key of that page is processed. The callback
error type is String, standing for the opaque Go error value, returned
unchanged. Also returns the metas the callback was invoked on. -/
def ForEachMeta (b : Bucket) (cb : Meta → Option String) :
    List (Option (List String)) → IterResult × List Meta
  | [] => (IterResult.ok, [])
  | none :: _ => (IterResult.listFailed, [])
  | some keys :: rest =>
    match forEachPageKeys b cb keys with
    | (some e, vs) => (IterResult.stopped e, vs)
    | (none, vs) =>
      let r := ForEachMeta b cb rest
      (r.1, vs ++ r.2)

/-! ## The retention sweep (internal/cleanup)

cleanup iterates all metadata via ForEachMeta with a callback that, for
each expired Meta, calls Delete; a Delete failure is logged and the
callback returns nil so the sweep continues; on success a counter is
incremented, reported at the end. The callback never returns an error,
so every successfully decoded Meta is visited; the model below folds the
callback body over that list of visited metas. deleteOk gives the
outcome of the Delete call for each checksum. The accumulator carries
the checksums for which a Delete was issued, in order, and the count of
successful deletions. -/

/-- The body of the cleanup callback for one Meta. -/
def cleanupStep (now : Int) (deleteOk : String → Bool) :
    List String × Nat → Meta → List String × Nat := fun acc m =>
  if metaIsExpiredAt now m then
    if deleteOk m.Checksum then (acc.1 ++ [m.Checksum], acc.2 + 1)
    else (acc.1 ++ [m.Checksum], acc.2)
  else acc

/-- One cleanup sweep over the decoded metadata entries: the checksums
for which Delete was called, and the reported count of successful
deletions. -/
def cleanup (now : Int) (deleteOk : String → Bool) (metas : List Meta) : List String × Nat :=
  metas.foldl (cleanupStep now deleteOk) ([], 0)

/-! ## The delete handler (internal/handlers, handleDelete)

handleDelete validates the checksum, verifies the paste exists with
storage.Get, then calls storage.Delete. The CSRF and form handling that
precedes it is HTTP glue and is not modelled. -/

/-- The externally visible outcome of handleDelete. invalidChecksum and
pasteNotFound both surface as HTTP 404. -/
inductive DeleteOutcome where
  | invalidChecksum
  | pasteNotFound
  | deleteFailed
  | deleted
  deriving DecidableEq, Repr

/-- handlers handleDelete (lines 300-323): reject malformed checksums,
report not found when Get fails, otherwise Delete and report the
outcome. -/
def handleDelete (b : Bucket) (checksum : String) (okContent okMeta : Bool) :
    DeleteOutcome × Bucket :=
  if checksum = "" || !(isValidChecksum checksum) then (DeleteOutcome.invalidChecksum, b)
  else
    match (S3Get b checksum).1 with
    | Except.error _ => (DeleteOutcome.pasteNotFound, b)
    | Except.ok _ =>
      match S3Delete b checksum okContent okMeta with
      | (b1, some _) => (DeleteOutcome.deleteFailed, b1)
      | (b1, none) => (DeleteOutcome.deleted, b1)

/-! ## Concrete fixtures used by witnesses and counterexamples -/

/-- A syntactically valid 64-hex identifier that is not the checksum of
the content stored under it. -/
def zeros64 : String := "0000000000000000000000000000000000000000000000000000000000000000"

/-- The SHA-256 checksum of the empty string (a standard test vector). -/
def rtChecksum : String := "e3b0c44298fc1c149afbf4c8996fb92427ae41e4649b934ca495991b7852b855"

/-- A concrete paste whose checksum field is the checksum of its content. -/
def rtPaste : Paste := ⟨rtChecksum, ""⟩

/-- A concrete metadata record. -/
def rtMeta : Meta := ⟨rtChecksum, 100, 3600000000000, 0⟩

/-- A bucket holding, under the key for zeros64, content whose recomputed
checksum differs from zeros64, and no metadata object. -/
def mismatchBucket : Bucket :=
  ⟨fun k => if k = pasteKeyOf zeros64 then some "x" else none, fun _ => none⟩

/-! ## Theorems -/

theorem pasteKeyOf_ne_metaKeyOf (c : String) : pasteKeyOf c ≠ metaKeyOf c := by
  intro h
  have h2 := congrArg String.length h
  have hp : ("pastes/" : String).length = 7 := by decide
  have hm : ("meta/" : String).length = 5 := by decide
  have hj : (".json" : String).length = 5 := by decide
  simp only [pasteKeyOf, metaKeyOf, String.length_append, hp, hm, hj] at h2
  omega

/-- C1: when the fetched content object has a recomputed checksum that
differs from the requested checksum, Get returns the distinguished
checksum-mismatch (corruption) error, issues no GetObject call for the
metadata key, and does not return the substituted content. -/
theorem get_mismatch_is_corruption (b : Bucket) (c content : String)
    (hc : b.contents (pasteKeyOf c) = some content)
    (hm : ComputeChecksum content ≠ c) :
    S3Get b c =
      (Except.error (GetErr.checksumMismatch c (ComputeChecksum content)), [pasteKeyOf c]) ∧
    GetErr.isCorruption (GetErr.checksumMismatch c (ComputeChecksum content)) = true ∧
    metaKeyOf c ∉ (S3Get b c).2 := by
  have h1 : S3Get b c =
      (Except.error (GetErr.checksumMismatch c (ComputeChecksum content)), [pasteKeyOf c]) := by
    simp [S3Get, hc, hm]
  refine ⟨h1, rfl, ?_⟩
  rw [h1]
  simp only [List.mem_singleton]
  exact fun h => pasteKeyOf_ne_metaKeyOf c h.symm

/-- Witness for C1 at a concrete bucket: zeros64 names stored bytes x,
whose checksum is not zeros64. -/
theorem get_mismatch_is_corruption_witness :
    S3Get mismatchBucket zeros64 =
      (Except.error (GetErr.checksumMismatch zeros64 (ComputeChecksum "x")), [pasteKeyOf zeros64]) ∧
    GetErr.isCorruption (GetErr.checksumMismatch zeros64 (ComputeChecksum "x")) = true ∧
    metaKeyOf zeros64 ∉ (S3Get mismatchBucket zeros64).2 :=
  get_mismatch_is_corruption mismatchBucket zeros64 "x" (by decide) (by decide)

/-- C3: storing a paste whose checksum field is the checksum of its
content and then getting that checksum succeeds and returns the same
content and the same metadata. -/
theorem store_get_roundtrip (b : Bucket) (p : Paste) (m : Meta)
    (h : ComputeChecksum p.Content = p.Checksum) :
    (S3Store b p m true true).2.1 = none ∧
    (S3Get (S3Store b p m true true).1 p.Checksum).1 = Except.ok (p, m) := by
  constructor
  · simp [S3Store]
  · simp [S3Store, S3Get, h]

/-- Witness for C3: round-trip of the empty paste through the empty
bucket, with the standard SHA-256 vector as its checksum. -/
theorem store_get_roundtrip_witness :
    (S3Store emptyBucket rtPaste rtMeta true true).2.1 = none ∧
    (S3Get (S3Store emptyBucket rtPaste rtMeta true true).1 rtPaste.Checksum).1 =
      Except.ok (rtPaste, rtMeta) :=
  store_get_roundtrip emptyBucket rtPaste rtMeta (by decide)

/-- C6: in every execution of Store the content PutObject is issued
first, the metadata PutObject is issued only when the content write
succeeded, and a failed content write returns the content-write error
with the bucket (in particular its metadata objects) unchanged. -/
theorem store_write_order (b : Bucket) (p : Paste) (m : Meta) (okContent okMeta : Bool) :
    (S3Store b p m okContent okMeta).2.2 =
      Event.putObject (pasteKeyOf p.Checksum) ::
        (if okContent then [Event.putObject (metaKeyOf p.Checksum)] else []) ∧
    S3Store b p m false okMeta =
      (b, some StoreErr.storePasteFailed, [Event.putObject (pasteKeyOf p.Checksum)]) := by
  cases okContent <;> cases okMeta <;> simp [S3Store]

/-- A metadata record whose checksum field names no stored object; used
to show Get does not cross-check the decoded metadata. -/
def bogusMeta : Meta := ⟨"bogus", 0, 0, 0⟩

/-- A bucket holding the empty content under the key for its checksum,
with a metadata object whose checksum field disagrees with the key. -/
def c10Bucket : Bucket :=
  ⟨fun k => if k = pasteKeyOf rtChecksum then some "" else none,
   fun k => if k = metaKeyOf rtChecksum then some (some bogusMeta) else none⟩

/-- C10: every successful Get returns a Paste whose Checksum field is the
requested checksum argument, and the decoded Meta is returned without
any check of its checksum field: a stored metadata object whose checksum
field differs from the checksum of the key still yields a successful
result (m below is arbitrary, its Checksum field unconstrained). -/
theorem get_success_checksum (b : Bucket) (c content : String) (m : Meta)
    (p : Paste) (mm : Meta) :
    ((S3Get b c).1 = Except.ok (p, mm) → p.Checksum = c) ∧
    (b.contents (pasteKeyOf c) = some content → ComputeChecksum content = c →
      b.metas (metaKeyOf c) = some (some m) →
      (S3Get b c).1 = Except.ok (⟨c, content⟩, m)) := by
  constructor
  · intro h
    unfold S3Get at h
    split at h
    · simp at h
    · split at h
      · simp at h
      · split at h
        · simp at h
        · simp at h
        · simp at h
          rw [← h.1]
  · intro h1 h2 h3
    simp [S3Get, h1, h2, h3]

/-- Witness for C10: the stored metadata has checksum field bogus, yet
Get succeeds and returns it, with the Paste carrying the requested key. -/
theorem get_success_checksum_witness :
    (S3Get c10Bucket rtChecksum).1 = Except.ok (⟨rtChecksum, ""⟩, bogusMeta) ∧
    bogusMeta.Checksum ≠ rtChecksum ∧
    (Paste.mk rtChecksum "").Checksum = rtChecksum :=
  ⟨(get_success_checksum c10Bucket rtChecksum "" bogusMeta (Paste.mk rtChecksum "") bogusMeta).2
      (by decide) (by decide) (by decide),
   by decide,
   (get_success_checksum c10Bucket rtChecksum "" bogusMeta (Paste.mk rtChecksum "") bogusMeta).1
      ((get_success_checksum c10Bucket rtChecksum "" bogusMeta (Paste.mk rtChecksum "") bogusMeta).2
        (by decide) (by decide) (by decide))⟩

/-- C4 (amended): a failed content fetch, and, when the content fetch
succeeds with a matching checksum, a failed metadata fetch or a failed
metadata decode, each produce a lookup-class error; all three are
distinguishable from the corruption error. The amendment: when the
fetched content itself fails the checksum comparison, the corruption
error takes precedence even if the metadata object is also missing or
undecodable (see the counterexample). -/
theorem get_notfound_classification (b : Bucket) (c content : String) :
    (b.contents (pasteKeyOf c) = none →
      (S3Get b c).1 = Except.error GetErr.getPasteFailed) ∧
    (b.contents (pasteKeyOf c) = some content → ComputeChecksum content = c →
      b.metas (metaKeyOf c) = none →
      (S3Get b c).1 = Except.error GetErr.getMetaFailed) ∧
    (b.contents (pasteKeyOf c) = some content → ComputeChecksum content = c →
      b.metas (metaKeyOf c) = some none →
      (S3Get b c).1 = Except.error GetErr.decodeMetaFailed) ∧
    GetErr.isCorruption GetErr.getPasteFailed = false ∧
    GetErr.isCorruption GetErr.getMetaFailed = false ∧
    GetErr.isCorruption GetErr.decodeMetaFailed = false := by
  refine ⟨?_, ?_, ?_, rfl, rfl, rfl⟩ <;> intros <;> simp [S3Get, *]

/-- A bucket with matching content under the key for rtChecksum and no
metadata object. -/
def noMetaBucket : Bucket :=
  ⟨fun k => if k = pasteKeyOf rtChecksum then some "" else none, fun _ => none⟩

/-- A bucket with matching content under the key for rtChecksum and an
undecodable metadata object. -/
def badMetaBucket : Bucket :=
  ⟨fun k => if k = pasteKeyOf rtChecksum then some "" else none,
   fun k => if k = metaKeyOf rtChecksum then some none else none⟩

/-- Witness for the amended C4 at three concrete buckets: missing
content, missing metadata, undecodable metadata. -/
theorem get_notfound_classification_witness :
    (S3Get emptyBucket rtChecksum).1 = Except.error GetErr.getPasteFailed ∧
    (S3Get noMetaBucket rtChecksum).1 = Except.error GetErr.getMetaFailed ∧
    (S3Get badMetaBucket rtChecksum).1 = Except.error GetErr.decodeMetaFailed :=
  ⟨(get_notfound_classification emptyBucket rtChecksum "").1 (by decide),
   (get_notfound_classification noMetaBucket rtChecksum "").2.1 (by decide) (by decide) (by decide),
   (get_notfound_classification badMetaBucket rtChecksum "").2.2.1 (by decide) (by decide) (by decide)⟩

/-- C4 counterexample: for the checksum zeros64 the metadata object
cannot be fetched, so the claim as stated requires a not-found-class
error; but the stored content is corrupt, and Get returns the corruption
error instead. -/
theorem get_notfound_counterexample :
    mismatchBucket.metas (metaKeyOf zeros64) = none ∧
    (S3Get mismatchBucket zeros64).1 =
      Except.error (GetErr.checksumMismatch zeros64 (ComputeChecksum "x")) ∧
    GetErr.isCorruption (GetErr.checksumMismatch zeros64 (ComputeChecksum "x")) = true :=
  ⟨rfl, rfl, rfl⟩

theorem cleanup_foldl_general (now : Int) (deleteOk : String → Bool) (metas : List Meta)
    (att : List String) (cnt : Nat) :
    metas.foldl (cleanupStep now deleteOk) (att, cnt) =
      (att ++ (metas.filter (metaIsExpiredAt now)).map Meta.Checksum,
       cnt + ((metas.filter (metaIsExpiredAt now)).filter (fun m => deleteOk m.Checksum)).length) := by
  induction metas generalizing att cnt with
  | nil => simp
  | cons m rest ih =>
    by_cases he : metaIsExpiredAt now m
    · by_cases hd : deleteOk m.Checksum
      · simp [cleanupStep, he, hd, ih, List.filter_cons]
        omega
      · simp [cleanupStep, he, hd, ih, List.filter_cons]
    · simp [cleanupStep, he, ih, List.filter_cons]

/-- C2 (amended): one cleanup sweep over the decoded metadata entries
issues a Delete call for exactly the entries that are strictly expired
(now strictly after expires_at, per Meta.IsExpired), in order, leaving
the rest alone; a failed Delete does not stop the sweep, the later
expired entries still being attempted; and the reported count is the
number of Delete calls that succeeded. The amendment: the code expiry
test is the strict now > expires_at of time.Time.After, not the
now >= expires_at of the claim (see the counterexample). -/
theorem cleanup_sweep_exact (now : Int) (deleteOk : String → Bool) (metas : List Meta) :
    (cleanup now deleteOk metas).1 =
      (metas.filter (metaIsExpiredAt now)).map Meta.Checksum ∧
    (cleanup now deleteOk metas).2 =
      ((metas.filter (metaIsExpiredAt now)).filter (fun m => deleteOk m.Checksum)).length := by
  unfold cleanup
  rw [cleanup_foldl_general]
  simp

/-- A metadata entry whose expiry instant equals the sweep instant. -/
def boundaryMeta : Meta := ⟨"aa", 0, 100, 1⟩

/-- C2 counterexample: at now = 100 the entry boundaryMeta satisfies the
now >= expires_at predicate of the claim, so the claim requires K = 1
deletion; the sweep issues no Delete call and reports 0 deletions,
because Meta.IsExpired uses the strict time.Now().After comparison. -/
theorem cleanup_boundary_counterexample :
    (100 : Int) ≥ boundaryMeta.ExpiresAt ∧
    cleanup 100 (fun _ => true) [boundaryMeta] = ([], 0) := by
  exact ⟨by decide, by decide⟩

theorem forEachPageKeys_trivial_cb (b : Bucket) (keys : List String) :
    forEachPageKeys b (fun _ => none) keys = (none, keys.filterMap (fetchMeta b)) := by
  induction keys with
  | nil => simp [forEachPageKeys]
  | cons k rest ih =>
    cases hf : fetchMeta b k <;> simp [forEachPageKeys, hf, ih, List.filterMap_cons]

theorem forEachPageKeys_stop (b : Bucket) (cb : Meta → Option String) (e : String)
    (keys : List String) (m : Meta) (ms : List Meta)
    (h : keys.filterMap (fetchMeta b) = m :: ms) (hcb : cb m = some e) :
    forEachPageKeys b cb keys = (some e, [m]) := by
  induction keys generalizing ms with
  | nil => simp at h
  | cons k rest ih =>
    cases hf : fetchMeta b k with
    | none =>
      simp only [List.filterMap_cons, hf] at h
      simp only [forEachPageKeys, hf]
      exact ih ms h
    | some m1 =>
      simp only [List.filterMap_cons, hf, List.cons.injEq] at h
      obtain ⟨h1, h2⟩ := h
      subst h1
      simp [forEachPageKeys, hf, hcb]

/-- C5: with a callback that never signals stop, every key whose
metadata object fails to fetch or decode is skipped and iteration
continues, visiting exactly the successfully decoded metas of all pages
in order; and when the callback signals stop on the first successfully
decoded item, ForEachMeta invokes the callback on exactly that one item,
halts without touching the remaining keys or pages, and propagates that
same error, regardless of how many items exist. -/
theorem foreach_skip_and_stop (b : Bucket) (pagesK : List (List String))
    (cb : Meta → Option String) (e : String) (keys : List String)
    (rest : List (Option (List String))) :
    ForEachMeta b (fun _ => none) (pagesK.map some) =
      (IterResult.ok, pagesK.flatten.filterMap (fetchMeta b)) ∧
    (∀ m ms, keys.filterMap (fetchMeta b) = m :: ms → cb m = some e →
      ForEachMeta b cb (some keys :: rest) = (IterResult.stopped e, [m])) := by
  constructor
  · induction pagesK with
    | nil => simp [ForEachMeta]
    | cons ks pr ih =>
      simp [ForEachMeta, forEachPageKeys_trivial_cb, ih, List.filterMap_append]
  · intro m ms h hcb
    rw [ForEachMeta, forEachPageKeys_stop b cb e keys m ms h hcb]

/-- Decoded metadata fixtures for the iteration witness. -/
def mIterA : Meta := ⟨"aa", 0, 10, 1⟩

def mIterC : Meta := ⟨"cc", 0, 20, 2⟩

/-- A bucket with two decodable metadata objects and one undecodable
one, under the bb key. -/
def iterBucket : Bucket :=
  ⟨fun _ => none,
   fun k =>
     if k = metaKeyOf "aa" then some (some mIterA)
     else if k = metaKeyOf "bb" then some none
     else if k = metaKeyOf "cc" then some (some mIterC) else none⟩

/-- Witness for C5: the undecodable bb object is skipped across two
pages; and with a stop-on-first callback only the first decoded meta is
visited even though more exist on this and a later page. -/
theorem foreach_skip_and_stop_witness :
    ForEachMeta iterBucket (fun _ => none)
      ([[metaKeyOf "aa", metaKeyOf "bb"], [metaKeyOf "cc"]].map some) =
      (IterResult.ok, [mIterA, mIterC]) ∧
    ForEachMeta iterBucket (fun _ => some "stop iteration")
      (some [metaKeyOf "bb", metaKeyOf "aa", metaKeyOf "cc"] :: [some [metaKeyOf "cc"]]) =
      (IterResult.stopped "stop iteration", [mIterA]) :=
  ⟨(foreach_skip_and_stop iterBucket [[metaKeyOf "aa", metaKeyOf "bb"], [metaKeyOf "cc"]]
      (fun _ => some "stop iteration") "stop iteration"
      [metaKeyOf "bb", metaKeyOf "aa", metaKeyOf "cc"] [some [metaKeyOf "cc"]]).1,
   (foreach_skip_and_stop iterBucket [[metaKeyOf "aa", metaKeyOf "bb"], [metaKeyOf "cc"]]
      (fun _ => some "stop iteration") "stop iteration"
      [metaKeyOf "bb", metaKeyOf "aa", metaKeyOf "cc"] [some [metaKeyOf "cc"]]).2
     mIterA [mIterC] (by decide) (by decide)⟩

theorem utf8Bytes_of_hex (c : Char) (h : isHexChar c = true) :
    utf8Bytes c = [c.toNat] := by
  have hv : c.toNat < 128 := by
    simp only [isHexChar, isHexByte, Bool.or_eq_true, Bool.and_eq_true, decide_eq_true_eq] at h
    omega
  simp [utf8Bytes, hv]

theorem utf8Bytes_not_hex (c : Char) (hv : ¬ c.toNat < 128) :
    ¬ ((utf8Bytes c).all isHexByte = true) := by
  simp only [utf8Bytes]
  split_ifs with h1 h2
  all_goals
    simp only [List.all_cons, List.all_nil, Bool.and_true, Bool.and_eq_true, isHexByte,
      Bool.or_eq_true, decide_eq_true_eq]
    omega

theorem hex_of_utf8Bytes (c : Char) (bs : List Nat)
    (h : ((utf8Bytes c ++ bs).all isHexByte) = true) :
    isHexChar c = true ∧ utf8Bytes c = [c.toNat] := by
  rw [List.all_append, Bool.and_eq_true] at h
  obtain ⟨h1, _⟩ := h
  by_cases hv : c.toNat < 128
  · rw [show utf8Bytes c = [c.toNat] from by simp [utf8Bytes, hv]] at h1
    simp only [List.all_cons, List.all_nil, Bool.and_true] at h1
    exact ⟨h1, by simp [utf8Bytes, hv]⟩
  · exact absurd h1 (utf8Bytes_not_hex c hv)

theorem goBytes_of_hex_chars (cs : List Char) (h : cs.all isHexChar = true) :
    cs.flatMap utf8Bytes = cs.map Char.toNat ∧
    ((cs.flatMap utf8Bytes).all isHexByte) = true := by
  induction cs with
  | nil => simp
  | cons c rest ih =>
    rw [List.all_cons, Bool.and_eq_true] at h
    obtain ⟨ih1, ih2⟩ := ih h.2
    have hc := utf8Bytes_of_hex c h.1
    refine ⟨by simp [List.flatMap_cons, hc, ih1], ?_⟩
    rw [List.flatMap_cons, List.all_append, Bool.and_eq_true, hc]
    exact ⟨by simpa [isHexChar] using h.1, ih2⟩

theorem hex_chars_of_goBytes (cs : List Char)
    (h : ((cs.flatMap utf8Bytes).all isHexByte) = true) :
    cs.all isHexChar = true ∧ cs.flatMap utf8Bytes = cs.map Char.toNat := by
  induction cs with
  | nil => simp
  | cons c rest ih =>
    rw [List.flatMap_cons] at h
    obtain ⟨hc, hcb⟩ := hex_of_utf8Bytes c (rest.flatMap utf8Bytes) h
    rw [List.all_append, Bool.and_eq_true] at h
    obtain ⟨ih1, ih2⟩ := ih h.2
    exact ⟨by simp [List.all_cons, hc, ih1], by simp [List.flatMap_cons, hcb, ih2]⟩

/-- C7: isValidChecksum returns true exactly when the string has 64
characters, each a hexadecimal digit, upper or lower case. The Go code
checks the UTF-8 byte length and the bytes; the two coincide because a
string whose bytes are all hexadecimal digit codes is ASCII. The model
is a total function, so every input, including the empty string,
non-ASCII bytes and strings of other lengths, produces a boolean rather
than a panic, as the Go code (a length test plus hex.DecodeString) does. -/
theorem isValidChecksum_spec (s : String) :
    isValidChecksum s = true ↔ (s.length = 64 ∧ s.data.all isHexChar = true) := by
  constructor
  · intro h
    unfold isValidChecksum at h
    rw [Bool.and_eq_true] at h
    obtain ⟨hl, hd⟩ := h
    unfold hexDecodeOk at hd
    rw [Bool.and_eq_true] at hd
    obtain ⟨hall, hmap⟩ := hex_chars_of_goBytes s.data hd.2
    refine ⟨?_, hall⟩
    have hlen : (goBytes s).length = 64 := by simpa using hl
    rw [goBytes, hmap, List.length_map] at hlen
    exact hlen
  · intro h
    obtain ⟨h64, hhex⟩ := h
    obtain ⟨hmap, hall⟩ := goBytes_of_hex_chars s.data hhex
    have hlen : (goBytes s).length = 64 := by
      rw [goBytes, hmap, List.length_map]
      exact h64
    unfold isValidChecksum hexDecodeOk
    rw [hlen]
    simp [goBytes, hall]

theorem effectiveTTL_eq (ttlStr : String) (defaultTTL : Int) :
    effectiveTTL ttlStr defaultTTL =
      (match parseDuration ttlStr with
       | some parsed =>
         if 0 < parsed then parsed
         else if 0 < defaultTTL then defaultTTL else fallbackDayTTL
       | none => if 0 < defaultTTL then defaultTTL else fallbackDayTTL) := by
  by_cases hs : ttlStr = ""
  · subst hs
    rw [show parseDuration "" = none from by decide]
    simp only [effectiveTTL, ne_eq, not_true_eq_false, if_false]
    split_ifs <;> omega
  · cases hp : parseDuration ttlStr with
    | none =>
      simp only [effectiveTTL, ne_eq, hs, not_false_eq_true, if_true, hp]
      split_ifs <;> omega
    | some d =>
      simp only [effectiveTTL, ne_eq, hs, not_false_eq_true, if_true, hp]
      split_ifs <;> omega

/-- C8: the effective TTL of a paste-creation request is the parsed
request value when it parses and is positive, and otherwise the
configured default, itself replaced by 24 hours when non-positive. The
concrete inputs of the spec behave accordingly: the empty string does
not parse, -1h and 0s parse to non-positive durations, and 48h parses
to exactly 48 hours and is used as given. -/
theorem effectiveTTL_spec (ttlStr : String) (defaultTTL : Int) :
    effectiveTTL ttlStr defaultTTL =
      (match parseDuration ttlStr with
       | some parsed =>
         if 0 < parsed then parsed
         else if 0 < defaultTTL then defaultTTL else fallbackDayTTL
       | none => if 0 < defaultTTL then defaultTTL else fallbackDayTTL) ∧
    parseDuration "" = none ∧
    parseDuration "-1h" = some (-3600000000000) ∧
    parseDuration "0s" = some 0 ∧
    parseDuration "48h" = some 172800000000000 ∧
    effectiveTTL "48h" defaultTTL = 172800000000000 := by
  have h48 : parseDuration "48h" = some 172800000000000 := by decide
  refine ⟨effectiveTTL_eq ttlStr defaultTTL, by decide, by decide, by decide, h48, ?_⟩
  rw [effectiveTTL_eq "48h" defaultTTL, h48]
  norm_num

/-- C9: for a stored checksum (valid identifier, content present under
its key with matching checksum, decodable metadata present), with no
concurrent recreation and a healthy backend, the first remove reports
success and deletes both objects, and an immediately following remove of
the same checksum reports not found, because the existence check of
handleDelete (a storage Get) now fails on the deleted content object. -/
theorem remove_twice (b : Bucket) (c content : String) (m : Meta)
    (hv : isValidChecksum c = true)
    (hc : b.contents (pasteKeyOf c) = some content)
    (hsum : ComputeChecksum content = c)
    (hm : b.metas (metaKeyOf c) = some (some m)) :
    (handleDelete b c true true).1 = DeleteOutcome.deleted ∧
    (handleDelete (handleDelete b c true true).2 c true true).1 =
      DeleteOutcome.pasteNotFound := by
  have hne : ¬(c = "") := by
    intro h
    rw [h] at hv
    exact absurd hv (by decide)
  constructor
  · simp [handleDelete, hne, hv, S3Get, hc, hsum, hm, S3Delete]
  · simp [handleDelete, hne, hv, S3Get, hc, hsum, hm, S3Delete]

/-- A bucket properly storing the empty paste and its metadata. -/
def storedBucket : Bucket :=
  ⟨fun k => if k = pasteKeyOf rtChecksum then some "" else none,
   fun k => if k = metaKeyOf rtChecksum then some (some rtMeta) else none⟩

/-- Witness for C9 at a concrete stored paste. -/
theorem remove_twice_witness :
    (handleDelete storedBucket rtChecksum true true).1 = DeleteOutcome.deleted ∧
    (handleDelete (handleDelete storedBucket rtChecksum true true).2 rtChecksum true true).1 =
      DeleteOutcome.pasteNotFound :=
  remove_twice storedBucket rtChecksum "" rtMeta (by decide) (by decide) (by decide) (by decide)

end Pastebin
